import Mathlib

/-!
# Verification of the mutating-webhook admission core

A shallow embedding of the Go admission webhook (`controller.go`): the
request decoder `parseRequest` and the mutation engine `addLabel`, together
with theorems settling the specification claims about them.

Modelling conventions:
* Go maps are association lists; indexing a `nil` map is modelled by
  `lookupLabel none k = none`.
* The Kubernetes client/namespace lookup is a function parameter
  `String → NsResult`; acquiring the client (`GetKubeClient`) may fail,
  modelled by an `Option` around that function.
* The namespace `Get` side effect is returned as an explicit effect trace
  (second component of `addLabel`'s result).
* Patch bytes are the exact strings the Go code builds by concatenation,
  including the raw-string literal's newline/tab layout.
-/

namespace MutatingWebhook

/-- A value stored under a key of the raw object's `metadata.labels`:
either a JSON string or something that is not a string. -/
inductive LabelValue where
  | str (s : String)
  | nonString
deriving DecidableEq, Repr

/-- Whether a raw label value is a JSON string. -/
def LabelValue.isStr : LabelValue → Bool
  | .str _ => true
  | .nonString => false

/-- The string carried by a raw label value (`""` for non-strings). -/
def LabelValue.strVal : LabelValue → String
  | .str s => s
  | .nonString => ""

/-- The generic (unstructured) projection of the submitted object that the
engine inspects: `kind`, `name`, `namespace` and the raw `metadata.labels`
content (`none` when the labels map is absent from the payload). -/
structure PodObject where
  kind : String
  name : String
  nsName : String
  rawLabels : Option (List (String × LabelValue))
deriving DecidableEq, Repr

/-- `unstructured.GetLabels` (apimachinery `NestedStringMap`): returns the
labels as a string map, or `nil` when the labels map is absent or any of
its values is not a string. -/
def getLabels : Option (List (String × LabelValue)) → Option (List (String × String))
  | none => none
  | some raw =>
    if raw.all (fun p => p.2.isStr) then
      some (raw.map (fun p => (p.1, p.2.strVal)))
    else none

/-- The inner `AdmissionRequest` of the review envelope: correlation `uid`,
request-level `namespace`, and the submitted object. `object = none` models
a raw payload on which the generic conversion
(`Convert_runtime_RawExtension_To_runtime_Object` / `ToUnstructured`) fails. -/
structure AdmissionRequest where
  uid : String
  nsName : String
  object : Option PodObject
deriving DecidableEq, Repr

/-- Outcome of the namespace lookup collaborator
(`c.CoreV1().Namespaces().Get`). -/
inductive NsResult where
  | found
  | notFound
  | transportError
deriving DecidableEq, Repr

/-- Engine failures: client acquisition failure (`GetKubeClient` error),
projection failure (raw bytes not convertible to a generic object), and
namespace lookup failure (`failed to fetch namespace <name>`). -/
inductive EngineError where
  | clientUnavailable
  | projectionFailed
  | namespaceUnavailable (name : String)
deriving DecidableEq, Repr

/-- The `admissionv1.AdmissionResponse` fields the engine sets. `patch`
holds the raw patch bytes as a string. -/
structure AdmissionResponse where
  uid : String
  allowed : Bool
  patch : Option String
  patchType : Option String
deriving DecidableEq, Repr

/-- Side effects the engine can perform: a namespace existence lookup.
The Go engine performs no other calls on the client (in particular no
writes), so this is the only effect constructor. -/
inductive Effect where
  | nsGet (name : String)
deriving DecidableEq, Repr

/-- `AdmissionResponse{Allowed: true, UID: uid}` — allow without mutation. -/
def allowUnchanged (uid : String) : AdmissionResponse :=
  { uid := uid, allowed := true, patch := none, patchType := none }

/-- Target label key (`serviceLabelKey` in the source). -/
def serviceLabelKey : String := "service"

/-- Target patch path (`serviceLabelPath` in the source). -/
def serviceLabelPath : String := "/metadata/labels/service"

/-- The two-operation patch bytes of the `podLabels == nil` branch:
add the labels map, then add the service key (exact raw-literal layout). -/
def patchAddMapAndKey (serviceVal : String) : String :=
  "[\n\t\t  \x7b \"op\": \"add\", \"path\": \"/metadata/labels\", \"value\": \x7b\x7d \x7d,\n\t\t  \x7b \"op\": \"add\", \"path\": \"/metadata/labels/service\", \"value\": \""
    ++ serviceVal ++ "\" \x7d\n\t\t]"

/-- The one-operation patch bytes adding the service key. -/
def patchAddKey (serviceVal : String) : String :=
  "[\n\t\t  \x7b \"op\": \"add\", \"path\": \"/metadata/labels/service\", \"value\": \""
    ++ serviceVal ++ "\" \x7d\n\t\t]"

/-- The one-operation patch bytes replacing the service key's value. -/
def patchReplaceKey (serviceVal : String) : String :=
  "[\n\t\t  \x7b \"op\": \"replace\", \"path\": \"/metadata/labels/service\", \"value\": \""
    ++ serviceVal ++ "\" \x7d\n\t\t]"

/-- `hasLabel` from the source: whether the key exists in the labels map. -/
def hasLabel (labels : List (String × String)) (key : String) : Bool :=
  (labels.lookup key).isSome

/-- Indexing a possibly-`nil` Go map: `m[k]` with its `ok` flag. -/
def lookupLabel (labels : Option (List (String × String))) (key : String) : Option String :=
  match labels with
  | none => none
  | some ls => ls.lookup key

/-- The `serviceVal` derivation switch (source lines 183–197): both labels
present → `appName-carID`; one present → that one; neither → no candidate. -/
def candidateService (podLabels : Option (List (String × String))) : Option String :=
  match lookupLabel podLabels "appName", lookupLabel podLabels "car_id" with
  | some appName, some carID => some (appName ++ "-" ++ carID)
  | some appName, none => some appName
  | none, some carID => some carID
  | none, none => none

/-- Effective namespace resolution (source lines 170–176): request
namespace, else the object's namespace, else `"default"`. -/
def effectiveNamespace (ar : AdmissionRequest) (u : PodObject) : String :=
  if ar.nsName ≠ "" then ar.nsName
  else if u.nsName ≠ "" then u.nsName
  else "default"

/-- The patch-construction switch (source lines 212–237), entered only
when a candidate exists and differs from the current `service` value. -/
def buildResponse (uid : String) (podLabels : Option (List (String × String)))
    (serviceVal : String) : AdmissionResponse :=
  match podLabels with
  | none =>
    { uid := uid, allowed := true,
      patch := some (patchAddMapAndKey serviceVal), patchType := some "JSONPatch" }
  | some ls =>
    if ¬ hasLabel ls serviceLabelKey then
      { uid := uid, allowed := true,
        patch := some (patchAddKey serviceVal), patchType := some "JSONPatch" }
    else
      { uid := uid, allowed := true,
        patch := some (patchReplaceKey serviceVal), patchType := some "JSONPatch" }

/-- The mutation engine `addLabel`. `getClient` is the outcome of
`GetKubeClient` (`none` = initialization error); on success it yields the
namespace lookup capability. The result pairs the Go return value
(`(*AdmissionResponse, error)` as an `Except`) with the trace of namespace
lookups performed during the call. -/
def addLabel (getClient : Option (String → NsResult)) (ar : AdmissionRequest) :
    Except EngineError AdmissionResponse × List Effect :=
  match getClient with
  | none => (Except.error EngineError.clientUnavailable, [])
  | some nsGet =>
    match ar.object with
    | none => (Except.error EngineError.projectionFailed, [])
    | some u =>
      if u.kind ≠ "Pod" then
        (Except.ok (allowUnchanged ar.uid), [])
      else
        let namespaceName := effectiveNamespace ar u
        match nsGet namespaceName with
        | NsResult.notFound =>
          (Except.error (EngineError.namespaceUnavailable namespaceName),
            [Effect.nsGet namespaceName])
        | NsResult.transportError =>
          (Except.error (EngineError.namespaceUnavailable namespaceName),
            [Effect.nsGet namespaceName])
        | NsResult.found =>
          let podLabels := getLabels u.rawLabels
          match candidateService podLabels with
          | none => (Except.ok (allowUnchanged ar.uid), [Effect.nsGet namespaceName])
          | some serviceVal =>
            if lookupLabel podLabels serviceLabelKey = some serviceVal then
              (Except.ok (allowUnchanged ar.uid), [Effect.nsGet namespaceName])
            else
              (Except.ok (buildResponse ar.uid podLabels serviceVal),
                [Effect.nsGet namespaceName])

/-! ## Branch characterizations of the engine -/

/-- With a working client, a convertible object that is not a Pod
short-circuits: allow, no patch, and no namespace lookup. -/
theorem addLabel_nonPod_eq (nsGet : String → NsResult) (ar : AdmissionRequest)
    (u : PodObject) (hobj : ar.object = some u) (hkind : ¬ u.kind = "Pod") :
    addLabel (some nsGet) ar = (Except.ok (allowUnchanged ar.uid), []) := by
  unfold addLabel
  rw [hobj]
  simp [hkind]

/-- With a working client, a Pod whose namespace lookup fails yields the
`NamespaceUnavailable` error, after exactly one lookup. -/
theorem addLabel_nsFail_eq (nsGet : String → NsResult) (ar : AdmissionRequest)
    (u : PodObject) (hobj : ar.object = some u) (hkind : u.kind = "Pod")
    (hns : nsGet (effectiveNamespace ar u) = NsResult.notFound ∨
      nsGet (effectiveNamespace ar u) = NsResult.transportError) :
    addLabel (some nsGet) ar =
      (Except.error (EngineError.namespaceUnavailable (effectiveNamespace ar u)),
        [Effect.nsGet (effectiveNamespace ar u)]) := by
  unfold addLabel
  rw [hobj]
  simp only [hkind, ne_eq, not_true_eq_false, if_false, ite_false]
  rcases hns with hns | hns <;> rw [hns]

/-- With a working client, a Pod whose namespace lookup succeeds but whose
labels yield no candidate is allowed unchanged, after one lookup. -/
theorem addLabel_noCandidate_eq (nsGet : String → NsResult) (ar : AdmissionRequest)
    (u : PodObject) (hobj : ar.object = some u) (hkind : u.kind = "Pod")
    (hns : nsGet (effectiveNamespace ar u) = NsResult.found)
    (hc : candidateService (getLabels u.rawLabels) = none) :
    addLabel (some nsGet) ar =
      (Except.ok (allowUnchanged ar.uid), [Effect.nsGet (effectiveNamespace ar u)]) := by
  simp [addLabel, hobj, hkind, hns, hc]

/-- With a working client, a Pod whose candidate equals the current
`service` value is allowed unchanged, after one lookup. -/
theorem addLabel_noop_eq (nsGet : String → NsResult) (ar : AdmissionRequest)
    (u : PodObject) (serviceVal : String)
    (hobj : ar.object = some u) (hkind : u.kind = "Pod")
    (hns : nsGet (effectiveNamespace ar u) = NsResult.found)
    (hc : candidateService (getLabels u.rawLabels) = some serviceVal)
    (heq : lookupLabel (getLabels u.rawLabels) serviceLabelKey = some serviceVal) :
    addLabel (some nsGet) ar =
      (Except.ok (allowUnchanged ar.uid), [Effect.nsGet (effectiveNamespace ar u)]) := by
  simp [addLabel, hobj, hkind, hns, hc, heq]

/-- With a working client, a Pod whose candidate differs from the current
`service` value gets the constructed patch response, after one lookup. -/
theorem addLabel_patch_eq (nsGet : String → NsResult) (ar : AdmissionRequest)
    (u : PodObject) (serviceVal : String)
    (hobj : ar.object = some u) (hkind : u.kind = "Pod")
    (hns : nsGet (effectiveNamespace ar u) = NsResult.found)
    (hc : candidateService (getLabels u.rawLabels) = some serviceVal)
    (hne : ¬ lookupLabel (getLabels u.rawLabels) serviceLabelKey = some serviceVal) :
    addLabel (some nsGet) ar =
      (Except.ok (buildResponse ar.uid (getLabels u.rawLabels) serviceVal),
        [Effect.nsGet (effectiveNamespace ar u)]) := by
  simp [addLabel, hobj, hkind, hns, hc, hne]

/-- `buildResponse` always copies the uid and allows. -/
theorem buildResponse_uid_allowed (uid : String)
    (pl : Option (List (String × String))) (v : String) :
    (buildResponse uid pl v).uid = uid ∧ (buildResponse uid pl v).allowed = true := by
  cases pl with
  | none => exact ⟨rfl, rfl⟩
  | some ls =>
    by_cases h : hasLabel ls serviceLabelKey <;> simp [buildResponse, h]

/-- `buildResponse` always attaches one of the three patch templates and
the `JSONPatch` patch type. -/
theorem buildResponse_patch_shape (uid : String)
    (pl : Option (List (String × String))) (v : String) :
    ((buildResponse uid pl v).patch = some (patchAddMapAndKey v) ∨
      (buildResponse uid pl v).patch = some (patchAddKey v) ∨
      (buildResponse uid pl v).patch = some (patchReplaceKey v)) ∧
    (buildResponse uid pl v).patchType = some "JSONPatch" := by
  cases pl with
  | none => exact ⟨Or.inl rfl, rfl⟩
  | some ls =>
    by_cases h : hasLabel ls serviceLabelKey <;>
      simp [buildResponse, h]

/-- No candidate is derivable from a `nil` labels map. -/
theorem candidateService_none : candidateService none = none := rfl

/-- Inversion: every non-error engine result is either the unchanged allow
or a `buildResponse` under the guards that lead to it. -/
theorem addLabel_ok_inv (g : Option (String → NsResult)) (ar : AdmissionRequest)
    (resp : AdmissionResponse) (h : (addLabel g ar).1 = Except.ok resp) :
    resp = allowUnchanged ar.uid ∨
    ∃ u serviceVal, ar.object = some u ∧
      candidateService (getLabels u.rawLabels) = some serviceVal ∧
      ¬ lookupLabel (getLabels u.rawLabels) serviceLabelKey = some serviceVal ∧
      resp = buildResponse ar.uid (getLabels u.rawLabels) serviceVal := by
  cases g with
  | none => simp [addLabel] at h
  | some nsGet =>
    cases hobj : ar.object with
    | none => simp [addLabel, hobj] at h
    | some u =>
      by_cases hk : u.kind = "Pod"
      · cases hns : nsGet (effectiveNamespace ar u) with
        | notFound =>
          rw [addLabel_nsFail_eq nsGet ar u hobj hk (Or.inl hns)] at h
          exact absurd h (by simp)
        | transportError =>
          rw [addLabel_nsFail_eq nsGet ar u hobj hk (Or.inr hns)] at h
          exact absurd h (by simp)
        | found =>
          cases hc : candidateService (getLabels u.rawLabels) with
          | none =>
            rw [addLabel_noCandidate_eq nsGet ar u hobj hk hns hc] at h
            exact Or.inl (Except.ok.inj h).symm
          | some serviceVal =>
            by_cases heq : lookupLabel (getLabels u.rawLabels) serviceLabelKey = some serviceVal
            · rw [addLabel_noop_eq nsGet ar u serviceVal hobj hk hns hc heq] at h
              exact Or.inl (Except.ok.inj h).symm
            · rw [addLabel_patch_eq nsGet ar u serviceVal hobj hk hns hc heq] at h
              exact Or.inr ⟨u, serviceVal, rfl, hc, heq, (Except.ok.inj h).symm⟩
      · rw [addLabel_nonPod_eq nsGet ar u hobj hk] at h
        exact Or.inl (Except.ok.inj h).symm

/-- The review envelope, reduced to the field the decoder checks: the
optional inner request. -/
structure AdmissionReview where
  request : Option AdmissionRequest
deriving DecidableEq, Repr

/-- The request body as the decoder classifies it: bytes that do not
deserialize into an `AdmissionReview`, or a deserialized envelope. -/
inductive Body where
  | malformed
  | wellFormed (review : AdmissionReview)
deriving DecidableEq, Repr

/-- The HTTP request parts `parseRequest` reads: the `Content-Type` header
value and the body. -/
structure HttpRequest where
  contentType : String
  body : Body
deriving DecidableEq, Repr

/-- Decoder failures. -/
inductive DecodeError where
  | badContentType
  | malformedEnvelope
  | missingRequest
deriving DecidableEq, Repr

/-- The request decoder `parseRequest` (source lines 257–270). -/
def parseRequest (r : HttpRequest) : Except DecodeError AdmissionReview :=
  if r.contentType ≠ "application/json" then
    Except.error DecodeError.badContentType
  else
    match r.body with
    | Body.malformed => Except.error DecodeError.malformedEnvelope
    | Body.wellFormed rv =>
      if rv.request.isNone then Except.error DecodeError.missingRequest
      else Except.ok rv

/-! ## A JSON (RFC 8259) recognizer

Used to check whether the patch bytes the engine emits are syntactically
valid JSON. The parser follows the RFC 8259 grammar: a text is a single
value surrounded by insignificant whitespace; strings admit the escape
sequences of the RFC and forbid unescaped control characters. -/

/-- RFC 8259 insignificant whitespace. -/
def isJsonWs (c : Char) : Bool :=
  c = ' ' || c = '\t' || c = '\n' || c = '\r'

/-- Drop leading JSON whitespace. -/
def skipWs : List Char → List Char
  | [] => []
  | c :: cs => if isJsonWs c then skipWs cs else c :: cs

/-- Hexadecimal digit test for `\u` escapes. -/
def isHexDigit (c : Char) : Bool :=
  c.isDigit || ('a' ≤ c && c ≤ 'f') || ('A' ≤ c && c ≤ 'F')

/-- Value of a hexadecimal digit. -/
def hexVal (c : Char) : Nat :=
  if c.isDigit then c.toNat - '0'.toNat
  else if 'a' ≤ c && c ≤ 'f' then c.toNat - 'a'.toNat + 10
  else c.toNat - 'A'.toNat + 10

/-- Parse the body of a JSON string after its opening quote, returning the
decoded characters and the remaining input. -/
def parseStringBody : List Char → Option (List Char × List Char)
  | [] => none
  | c :: cs =>
    if c = '"' then some ([], cs)
    else if c = '\\' then
      match cs with
      | [] => none
      | e :: cs2 =>
        if e = '"' || e = '\\' || e = '/' then
          (parseStringBody cs2).map (fun p => (e :: p.1, p.2))
        else if e = 'b' then
          (parseStringBody cs2).map (fun p => ('\x08' :: p.1, p.2))
        else if e = 'f' then
          (parseStringBody cs2).map (fun p => ('\x0c' :: p.1, p.2))
        else if e = 'n' then
          (parseStringBody cs2).map (fun p => ('\n' :: p.1, p.2))
        else if e = 'r' then
          (parseStringBody cs2).map (fun p => ('\x0d' :: p.1, p.2))
        else if e = 't' then
          (parseStringBody cs2).map (fun p => ('\t' :: p.1, p.2))
        else if e = 'u' then
          match cs2 with
          | h1 :: h2 :: h3 :: h4 :: cs3 =>
            if isHexDigit h1 && isHexDigit h2 && isHexDigit h3 && isHexDigit h4 then
              (parseStringBody cs3).map (fun p =>
                (Char.ofNat (((hexVal h1 * 16 + hexVal h2) * 16 + hexVal h3) * 16 + hexVal h4)
                  :: p.1, p.2))
            else none
          | _ => none
        else none
    else if c.toNat < 32 then none
    else (parseStringBody cs).map (fun p => (c :: p.1, p.2))

/-- Take a maximal run of decimal digits. -/
def takeDigits : List Char → List Char × List Char
  | [] => ([], [])
  | c :: cs =>
    if c.isDigit then
      let p := takeDigits cs
      (c :: p.1, p.2)
    else ([], c :: cs)

/-- Parse the exponent part after `e`/`E`: optional sign, then one or more
digits. -/
def parseExpPart (cs : List Char) : Option (List Char × List Char) :=
  let sgn := match cs with
    | '+' :: r => (['+'], r)
    | '-' :: r => (['-'], r)
    | r => (([] : List Char), r)
  match takeDigits sgn.2 with
  | ([], _) => none
  | (ds, r) => some (sgn.1 ++ ds, r)

/-- Parse the optional fraction and exponent after the integer part. -/
def parseFracExp (intLex : List Char) (cs : List Char) : Option (List Char × List Char) :=
  let fracRes : Option (List Char × List Char) :=
    match cs with
    | '.' :: r =>
      match takeDigits r with
      | ([], _) => none
      | (ds, r2) => some (intLex ++ '.' :: ds, r2)
    | _ => some (intLex, cs)
  match fracRes with
  | none => none
  | some (lex2, cs2) =>
    match cs2 with
    | 'e' :: r =>
      match parseExpPart r with
      | none => none
      | some (ex, r2) => some (lex2 ++ 'e' :: ex, r2)
    | 'E' :: r =>
      match parseExpPart r with
      | none => none
      | some (ex, r2) => some (lex2 ++ 'E' :: ex, r2)
    | _ => some (lex2, cs2)

/-- Parse a JSON number: `-? (0 | [1-9][0-9]*) frac? exp?`. -/
def parseNumber (cs : List Char) : Option (List Char × List Char) :=
  let neg := match cs with
    | '-' :: r => (['-'], r)
    | r => (([] : List Char), r)
  match neg.2 with
  | [] => none
  | c :: rest =>
    if c = '0' then
      parseFracExp (neg.1 ++ ['0']) rest
    else if c.isDigit then
      let p := takeDigits rest
      parseFracExp (neg.1 ++ c :: p.1) p.2
    else none

/-- JSON values; string content and number lexemes are kept as character
lists. -/
inductive Json where
  | null
  | bool (b : Bool)
  | num (lexeme : List Char)
  | str (chars : List Char)
  | arr (elems : List Json)
  | obj (members : List (List Char × Json))
deriving Repr

mutual

/-- Parse one JSON value (leading whitespace allowed); `fuel` bounds the
recursion depth and is ample at one unit per input character. -/
def parseValue : Nat → List Char → Option (Json × List Char)
  | 0, _ => none
  | Nat.succ fuel, cs =>
    match skipWs cs with
    | [] => none
    | c :: rest =>
      if c = 'n' then
        match rest with
        | 'u' :: 'l' :: 'l' :: r => some (Json.null, r)
        | _ => none
      else if c = 't' then
        match rest with
        | 'r' :: 'u' :: 'e' :: r => some (Json.bool true, r)
        | _ => none
      else if c = 'f' then
        match rest with
        | 'a' :: 'l' :: 's' :: 'e' :: r => some (Json.bool false, r)
        | _ => none
      else if c = '"' then
        match parseStringBody rest with
        | some (s, r) => some (Json.str s, r)
        | none => none
      else if c = '\x7b' then
        match skipWs rest with
        | '\x7d' :: r => some (Json.obj [], r)
        | cs2 =>
          match parseMembers fuel cs2 with
          | some (ms, r) => some (Json.obj ms, r)
          | none => none
      else if c = '[' then
        match skipWs rest with
        | ']' :: r => some (Json.arr [], r)
        | cs2 =>
          match parseElements fuel cs2 with
          | some (xs, r) => some (Json.arr xs, r)
          | none => none
      else if c = '-' || c.isDigit then
        match parseNumber (c :: rest) with
        | some (lex, r) => some (Json.num lex, r)
        | none => none
      else none

/-- Parse one or more `string : value` members and the closing brace. -/
def parseMembers : Nat → List Char → Option (List (List Char × Json) × List Char)
  | 0, _ => none
  | Nat.succ fuel, cs =>
    match skipWs cs with
    | '"' :: rest =>
      match parseStringBody rest with
      | some (k, r1) =>
        match skipWs r1 with
        | ':' :: r2 =>
          match parseValue fuel r2 with
          | some (v, r3) =>
            match skipWs r3 with
            | ',' :: r4 =>
              match parseMembers fuel r4 with
              | some (ms, r5) => some ((k, v) :: ms, r5)
              | none => none
            | '\x7d' :: r4 => some ([(k, v)], r4)
            | _ => none
          | none => none
        | _ => none
      | none => none
    | _ => none

/-- Parse one or more array elements and the closing bracket. -/
def parseElements : Nat → List Char → Option (List Json × List Char)
  | 0, _ => none
  | Nat.succ fuel, cs =>
    match parseValue fuel cs with
    | some (v, r1) =>
      match skipWs r1 with
      | ',' :: r2 =>
        match parseElements fuel r2 with
        | some (xs, r3) => some (v :: xs, r3)
        | none => none
      | ']' :: r2 => some ([v], r2)
      | _ => none
    | none => none

end

/-- Recognize a complete JSON text: one value, with only insignificant
whitespace before and after. -/
def jsonParse (s : String) : Option Json :=
  match parseValue (s.length + 1) s.toList with
  | some (v, rest) => if skipWs rest = [] then some v else none
  | none => none

/-! ## Concrete fixtures -/

/-- A lookup collaborator that finds every namespace. -/
def nsAlwaysFound : String → NsResult := fun _ => NsResult.found

/-- A lookup collaborator that reports every namespace missing. -/
def nsNeverFound : String → NsResult := fun _ => NsResult.notFound

/-- The walkthrough Pod: labels `appName=nginx`, `car_id=01234`, no
`service` key. -/
def podNginx : PodObject :=
  { kind := "Pod", name := "nginx-test", nsName := "default",
    rawLabels := some [("appName", LabelValue.str "nginx"),
                       ("car_id", LabelValue.str "01234")] }

/-- The walkthrough request carrying `podNginx`. -/
def arNginx : AdmissionRequest :=
  { uid := "uid-nginx", nsName := "default", object := some podNginx }

/-- A non-Pod object with labels that would otherwise derive a candidate. -/
def podDeploy : PodObject :=
  { kind := "Deployment", name := "web", nsName := "default",
    rawLabels := some [("appName", LabelValue.str "nginx"),
                       ("car_id", LabelValue.str "01234")] }

/-- A request carrying the non-Pod object. -/
def arDeploy : AdmissionRequest :=
  { uid := "uid-deploy", nsName := "default", object := some podDeploy }

/-- Raw labels carrying `appName` and `car_id` as strings next to a
non-string value, so that `GetLabels` projects the whole map to `nil`. -/
def rawMixed : List (String × LabelValue) :=
  [("appName", LabelValue.str "nginx"), ("car_id", LabelValue.str "01234"),
   ("replicas", LabelValue.nonString)]

/-- A Pod whose payload carries both source labels but whose projected
labels map is `nil`. -/
def podMixed : PodObject :=
  { kind := "Pod", name := "mixed", nsName := "default",
    rawLabels := some rawMixed }

/-- A request carrying `podMixed`. -/
def arMixed : AdmissionRequest :=
  { uid := "uid-mixed", nsName := "default", object := some podMixed }

set_option maxRecDepth 100000

/-- Sanity of the recognizer on the engine's well-behaved output: the
one-operation add patch for the walkthrough value is valid JSON. -/
theorem jsonParse_patchAddKey_example :
    (jsonParse (patchAddKey "nginx-01234")).isSome = true := by rfl

/-- The two-operation patch template is valid JSON for escape-free values. -/
theorem jsonParse_patchAddMapAndKey_example :
    (jsonParse (patchAddMapAndKey "nginx-01234")).isSome = true := by rfl

/-! ## Claims -/

/-- C3: for every request whose projected object kind is not `"Pod"`, the
engine returns an allowed decision with no patch and no error, regardless
of the object's labels or of the namespace lookup — a short-circuit that
performs no lookup at all. -/
theorem nonPod_allow_no_patch (nsGet : String → NsResult) (ar : AdmissionRequest)
    (u : PodObject) (hobj : ar.object = some u) (hkind : u.kind ≠ "Pod") :
    addLabel (some nsGet) ar =
      (Except.ok { uid := ar.uid, allowed := true, patch := none, patchType := none },
        []) :=
  addLabel_nonPod_eq nsGet ar u hobj hkind

/-- Witness for C3 at the concrete `Deployment` request. -/
theorem nonPod_allow_no_patch_witness :
    arDeploy.object = some podDeploy ∧ podDeploy.kind ≠ "Pod" ∧
    addLabel (some nsAlwaysFound) arDeploy =
      (Except.ok { uid := "uid-deploy", allowed := true, patch := none, patchType := none },
        []) :=
  ⟨rfl, by decide, nonPod_allow_no_patch nsAlwaysFound arDeploy podDeploy rfl (by decide)⟩

/-- C7: on every non-error return of the engine, the decision's uid equals
the request's uid and the decision allows; no path denies. -/
theorem engine_uid_allowed_invariant (g : Option (String → NsResult))
    (ar : AdmissionRequest) (resp : AdmissionResponse)
    (h : (addLabel g ar).1 = Except.ok resp) :
    resp.uid = ar.uid ∧ resp.allowed = true := by
  rcases addLabel_ok_inv g ar resp h with h1 | ⟨u, v, _, _, _, h2⟩
  · subst h1; exact ⟨rfl, rfl⟩
  · subst h2; exact buildResponse_uid_allowed ar.uid (getLabels u.rawLabels) v

/-- The decision the engine produces on the walkthrough request: allow
with the one-operation add patch for `service=nginx-01234`. -/
def respNginxAdd : AdmissionResponse :=
  { uid := "uid-nginx", allowed := true,
    patch := some (patchAddKey "nginx-01234"), patchType := some "JSONPatch" }

/-- Witness for C7 at the walkthrough request. -/
theorem engine_uid_allowed_invariant_witness :
    (addLabel (some nsAlwaysFound) arNginx).1 = Except.ok respNginxAdd ∧
    respNginxAdd.uid = arNginx.uid ∧ respNginxAdd.allowed = true :=
  ⟨rfl,
    (engine_uid_allowed_invariant (some nsAlwaysFound) arNginx respNginxAdd rfl).1,
    (engine_uid_allowed_invariant (some nsAlwaysFound) arNginx respNginxAdd rfl).2⟩

/-- C5: whenever the namespace lookup reports not-found or a transport
error on a Pod request, the engine call fails with `NamespaceUnavailable`
(no decision, hence no patch), and the namespace looked up is the request
namespace, falling back to the pod's namespace, then to `"default"`. -/
theorem nsFailure_namespaceUnavailable (nsGet : String → NsResult)
    (ar : AdmissionRequest) (u : PodObject)
    (hobj : ar.object = some u) (hkind : u.kind = "Pod")
    (hns : nsGet (effectiveNamespace ar u) = NsResult.notFound ∨
      nsGet (effectiveNamespace ar u) = NsResult.transportError) :
    addLabel (some nsGet) ar =
      (Except.error (EngineError.namespaceUnavailable (effectiveNamespace ar u)),
        [Effect.nsGet (effectiveNamespace ar u)]) ∧
    (ar.nsName ≠ "" → effectiveNamespace ar u = ar.nsName) ∧
    (ar.nsName = "" → u.nsName ≠ "" → effectiveNamespace ar u = u.nsName) ∧
    (ar.nsName = "" → u.nsName = "" → effectiveNamespace ar u = "default") := by
  refine ⟨addLabel_nsFail_eq nsGet ar u hobj hkind hns, ?_, ?_, ?_⟩ <;>
    intros <;> simp [effectiveNamespace, *]

/-- Witness for C5 at the walkthrough Pod with a failing lookup. -/
theorem nsFailure_namespaceUnavailable_witness :
    arNginx.object = some podNginx ∧ podNginx.kind = "Pod" ∧
    nsNeverFound (effectiveNamespace arNginx podNginx) = NsResult.notFound ∧
    addLabel (some nsNeverFound) arNginx =
      (Except.error (EngineError.namespaceUnavailable (effectiveNamespace arNginx podNginx)),
        [Effect.nsGet (effectiveNamespace arNginx podNginx)]) :=
  ⟨rfl, rfl, rfl,
    (nsFailure_namespaceUnavailable nsNeverFound arNginx podNginx rfl rfl (Or.inl rfl)).1⟩

/-- C4 counterexample: a Pod whose projected labels map is absent while its
payload carries both `appName` and `car_id` (next to a non-string label
value) gets no patch at all — not the claimed two-operation patch. -/
theorem labelsAbsent_sources_present_no_patch_cex :
    rawMixed.lookup "appName" = some (LabelValue.str "nginx") ∧
    rawMixed.lookup "car_id" = some (LabelValue.str "01234") ∧
    getLabels podMixed.rawLabels = none ∧
    (addLabel (some nsAlwaysFound) arMixed).1 =
      Except.ok { uid := "uid-mixed", allowed := true, patch := none, patchType := none } :=
  ⟨rfl, rfl, rfl, rfl⟩

/-- C4 amended: when the projected labels map is absent, no candidate is
derivable, so the engine allows with no patch after the namespace lookup;
the two-operation branch of `buildResponse` is never reached. -/
theorem nilLabels_allow_no_patch (nsGet : String → NsResult) (ar : AdmissionRequest)
    (u : PodObject) (hobj : ar.object = some u) (hkind : u.kind = "Pod")
    (hns : nsGet (effectiveNamespace ar u) = NsResult.found)
    (hnil : getLabels u.rawLabels = none) :
    addLabel (some nsGet) ar =
      (Except.ok { uid := ar.uid, allowed := true, patch := none, patchType := none },
        [Effect.nsGet (effectiveNamespace ar u)]) := by
  have hc : candidateService (getLabels u.rawLabels) = none := by rw [hnil]; rfl
  exact addLabel_noCandidate_eq nsGet ar u hobj hkind hns hc

/-- Witness for the amended C4 at the mixed-value Pod. -/
theorem nilLabels_allow_no_patch_witness :
    arMixed.object = some podMixed ∧ podMixed.kind = "Pod" ∧
    nsAlwaysFound (effectiveNamespace arMixed podMixed) = NsResult.found ∧
    getLabels podMixed.rawLabels = none ∧
    addLabel (some nsAlwaysFound) arMixed =
      (Except.ok { uid := "uid-mixed", allowed := true, patch := none, patchType := none },
        [Effect.nsGet (effectiveNamespace arMixed podMixed)]) :=
  ⟨rfl, rfl, rfl, rfl,
    nilLabels_allow_no_patch nsAlwaysFound arMixed podMixed rfl rfl rfl rfl⟩

/-- Character-list view of string concatenation. -/
theorem string_data_append (s t : String) : (s ++ t).data = s.data ++ t.data := by
  cases s
  cases t
  rfl

/-- The one-operation add template and the two-operation template differ
at byte 46 (`/` vs `"`), inside both fixed prefixes, whatever the spliced
values are. -/
theorem patchAddKey_ne_mapAndKey (v w : String) :
    patchAddKey v ≠ patchAddMapAndKey w := by
  intro h
  have h2 := congrArg (fun s : String => (s.data)[46]?) h
  simp only [patchAddKey, patchAddMapAndKey, string_data_append, List.append_assoc] at h2
  have b1 : 46 < ("[\n\t\t  \x7b \"op\": \"add\", \"path\": \"/metadata/labels/service\", \"value\": \"".data).length := by
    decide
  have b2 : 46 < ("[\n\t\t  \x7b \"op\": \"add\", \"path\": \"/metadata/labels\", \"value\": \x7b\x7d \x7d,\n\t\t  \x7b \"op\": \"add\", \"path\": \"/metadata/labels/service\", \"value\": \"".data).length := by
    decide
  rw [List.getElem?_append_left b1, List.getElem?_append_left b2] at h2
  exact absurd h2 (by decide)

/-- The one-operation replace template and the two-operation template
differ at byte 15 (`r` vs `a`), inside both fixed prefixes. -/
theorem patchReplaceKey_ne_mapAndKey (v w : String) :
    patchReplaceKey v ≠ patchAddMapAndKey w := by
  intro h
  have h2 := congrArg (fun s : String => (s.data)[15]?) h
  simp only [patchReplaceKey, patchAddMapAndKey, string_data_append, List.append_assoc] at h2
  have b1 : 15 < ("[\n\t\t  \x7b \"op\": \"replace\", \"path\": \"/metadata/labels/service\", \"value\": \"".data).length := by
    decide
  have b2 : 15 < ("[\n\t\t  \x7b \"op\": \"add\", \"path\": \"/metadata/labels\", \"value\": \x7b\x7d \x7d,\n\t\t  \x7b \"op\": \"add\", \"path\": \"/metadata/labels/service\", \"value\": \"".data).length := by
    decide
  rw [List.getElem?_append_left b1, List.getElem?_append_left b2] at h2
  exact absurd h2 (by decide)

/-- C10: every decision that carries a patch comes from a Pod whose
projected labels map was non-`nil`, and the patch is one of the two
one-operation templates; it is never the two-operation template, whose
branch is unreachable. -/
theorem patch_one_op_labels_present (g : Option (String → NsResult))
    (ar : AdmissionRequest) (resp : AdmissionResponse) (p : String)
    (hok : (addLabel g ar).1 = Except.ok resp) (hp : resp.patch = some p) :
    ∃ u, ar.object = some u ∧ getLabels u.rawLabels ≠ none ∧
      ∃ v, (p = patchAddKey v ∨ p = patchReplaceKey v) ∧
        ∀ w, p ≠ patchAddMapAndKey w := by
  rcases addLabel_ok_inv g ar resp hok with h1 | ⟨u, v, hobj, hc, hne, h2⟩
  · subst h1
    simp [allowUnchanged] at hp
  · subst h2
    refine ⟨u, hobj, ?_, ?_⟩
    · intro hnil
      rw [hnil] at hc
      simp [candidateService_none] at hc
    · cases hpl : getLabels u.rawLabels with
      | none =>
        rw [hpl] at hc
        simp [candidateService_none] at hc
      | some ls =>
        rw [hpl] at hp
        by_cases hsl : hasLabel ls serviceLabelKey
        · simp [buildResponse, hsl] at hp
          subst hp
          exact ⟨v, Or.inr rfl, fun w => patchReplaceKey_ne_mapAndKey v w⟩
        · simp [buildResponse, hsl] at hp
          subst hp
          exact ⟨v, Or.inl rfl, fun w => patchAddKey_ne_mapAndKey v w⟩

/-- Witness for C10 at the walkthrough request. -/
theorem patch_one_op_labels_present_witness :
    (addLabel (some nsAlwaysFound) arNginx).1 = Except.ok respNginxAdd ∧
    respNginxAdd.patch = some (patchAddKey "nginx-01234") ∧
    (∃ u, arNginx.object = some u ∧ getLabels u.rawLabels ≠ none ∧
      ∃ v, (patchAddKey "nginx-01234" = patchAddKey v ∨
            patchAddKey "nginx-01234" = patchReplaceKey v) ∧
        ∀ w, patchAddKey "nginx-01234" ≠ patchAddMapAndKey w) :=
  ⟨rfl, rfl,
    patch_one_op_labels_present (some nsAlwaysFound) arNginx respNginxAdd
      (patchAddKey "nginx-01234") rfl rfl⟩

/-- The projected labels of the walkthrough Pod. -/
def labelsNginx : List (String × String) :=
  [("appName", "nginx"), ("car_id", "01234")]

/-- C1: for every Pod whose labels contain `appName=A` and `car_id=C` and
whose namespace lookup succeeds, the engine allows and computes the
service value `A-C` (single dash, `appName` first): no patch when the
`service` label already equals `A-C`, the one-operation add patch when the
key is absent, the one-operation replace patch otherwise. -/
theorem appName_carID_service_concat (nsGet : String → NsResult)
    (ar : AdmissionRequest) (u : PodObject)
    (L : List (String × String)) (A C : String)
    (hobj : ar.object = some u) (hkind : u.kind = "Pod")
    (hns : nsGet (effectiveNamespace ar u) = NsResult.found)
    (hlab : getLabels u.rawLabels = some L)
    (hA : L.lookup "appName" = some A) (hC : L.lookup "car_id" = some C) :
    ∃ resp, (addLabel (some nsGet) ar).1 = Except.ok resp ∧
      resp.allowed = true ∧ resp.uid = ar.uid ∧
      resp.patch =
        (if L.lookup "service" = some (A ++ "-" ++ C) then none
          else if L.lookup "service" = none then some (patchAddKey (A ++ "-" ++ C))
          else some (patchReplaceKey (A ++ "-" ++ C))) := by
  have hc : candidateService (getLabels u.rawLabels) = some (A ++ "-" ++ C) := by
    simp [candidateService, lookupLabel, hlab, hA, hC]
  have hlook : lookupLabel (getLabels u.rawLabels) serviceLabelKey = L.lookup "service" := by
    simp [lookupLabel, hlab, serviceLabelKey]
  cases hs : L.lookup "service" with
  | none =>
    have hne : ¬ lookupLabel (getLabels u.rawLabels) serviceLabelKey
        = some (A ++ "-" ++ C) := by
      rw [hlook, hs]
      simp
    refine ⟨buildResponse ar.uid (getLabels u.rawLabels) (A ++ "-" ++ C), ?_, ?_, ?_, ?_⟩
    · rw [addLabel_patch_eq nsGet ar u (A ++ "-" ++ C) hobj hkind hns hc hne]
    · exact (buildResponse_uid_allowed _ _ _).2
    · exact (buildResponse_uid_allowed _ _ _).1
    · rw [hlab]
      simp [buildResponse, hasLabel, serviceLabelKey, hs]
  | some w =>
    by_cases hw : w = A ++ "-" ++ C
    · subst hw
      have heq : lookupLabel (getLabels u.rawLabels) serviceLabelKey
          = some (A ++ "-" ++ C) := by
        rw [hlook, hs]
      refine ⟨allowUnchanged ar.uid, ?_, rfl, rfl, ?_⟩
      · rw [addLabel_noop_eq nsGet ar u (A ++ "-" ++ C) hobj hkind hns hc heq]
      · simp [allowUnchanged, hs]
    · have hne : ¬ lookupLabel (getLabels u.rawLabels) serviceLabelKey
          = some (A ++ "-" ++ C) := by
        rw [hlook, hs]
        simp [hw]
      refine ⟨buildResponse ar.uid (getLabels u.rawLabels) (A ++ "-" ++ C), ?_, ?_, ?_, ?_⟩
      · rw [addLabel_patch_eq nsGet ar u (A ++ "-" ++ C) hobj hkind hns hc hne]
      · exact (buildResponse_uid_allowed _ _ _).2
      · exact (buildResponse_uid_allowed _ _ _).1
      · rw [hlab]
        simp [buildResponse, hasLabel, serviceLabelKey, hs, hw]

/-- Witness for C1 at the walkthrough request: labels map present, no
`service` key, so the patch is exactly the one-operation add at
`/metadata/labels/service` with value `nginx-01234`. -/
theorem appName_carID_service_concat_witness :
    getLabels podNginx.rawLabels = some labelsNginx ∧
    labelsNginx.lookup "appName" = some "nginx" ∧
    labelsNginx.lookup "car_id" = some "01234" ∧
    labelsNginx.lookup "service" = none ∧
    (∃ resp, (addLabel (some nsAlwaysFound) arNginx).1 = Except.ok resp ∧
      resp.allowed = true ∧ resp.uid = arNginx.uid ∧
      resp.patch =
        (if labelsNginx.lookup "service" = some ("nginx" ++ "-" ++ "01234") then none
          else if labelsNginx.lookup "service" = none then
            some (patchAddKey ("nginx" ++ "-" ++ "01234"))
          else some (patchReplaceKey ("nginx" ++ "-" ++ "01234")))) :=
  ⟨rfl, rfl, rfl, rfl,
    appName_carID_service_concat nsAlwaysFound arNginx podNginx labelsNginx
      "nginx" "01234" rfl rfl rfl rfl rfl rfl⟩

/-- C2: for every Pod request that passes the namespace check, the
decision carries a patch iff a candidate is derivable and differs from the
current `service` value; hence no sources → no patch, and
`service = candidate` → no patch (idempotence). -/
theorem patch_iff_label_state_differs (nsGet : String → NsResult)
    (ar : AdmissionRequest) (u : PodObject)
    (hobj : ar.object = some u) (hkind : u.kind = "Pod")
    (hns : nsGet (effectiveNamespace ar u) = NsResult.found) :
    ∃ resp, (addLabel (some nsGet) ar).1 = Except.ok resp ∧
      ((resp.patch).isSome ↔
        ∃ v, candidateService (getLabels u.rawLabels) = some v ∧
          lookupLabel (getLabels u.rawLabels) serviceLabelKey ≠ some v) ∧
      (lookupLabel (getLabels u.rawLabels) "appName" = none →
        lookupLabel (getLabels u.rawLabels) "car_id" = none → resp.patch = none) ∧
      (∀ v, candidateService (getLabels u.rawLabels) = some v →
        lookupLabel (getLabels u.rawLabels) serviceLabelKey = some v →
          resp.patch = none) := by
  cases hc : candidateService (getLabels u.rawLabels) with
  | none =>
    refine ⟨allowUnchanged ar.uid, ?_, ?_, ?_, ?_⟩
    · rw [addLabel_noCandidate_eq nsGet ar u hobj hkind hns hc]
    · simp [allowUnchanged, hc]
    · intro _ _
      rfl
    · intro v hv _
      exact absurd hv (by simp)
  | some v0 =>
    by_cases heq : lookupLabel (getLabels u.rawLabels) serviceLabelKey = some v0
    · refine ⟨allowUnchanged ar.uid, ?_, ?_, ?_, ?_⟩
      · rw [addLabel_noop_eq nsGet ar u v0 hobj hkind hns hc heq]
      · simp [allowUnchanged, hc, heq]
      · intro hApp hCar
        simp [candidateService, hApp, hCar] at hc
      · intro v _ _
        rfl
    · refine ⟨buildResponse ar.uid (getLabels u.rawLabels) v0, ?_, ?_, ?_, ?_⟩
      · rw [addLabel_patch_eq nsGet ar u v0 hobj hkind hns hc heq]
      · constructor
        · intro _
          exact ⟨v0, rfl, heq⟩
        · intro _
          rcases (buildResponse_patch_shape ar.uid (getLabels u.rawLabels) v0).1
            with h | h | h <;> simp [h]
      · intro hApp hCar
        simp [candidateService, hApp, hCar] at hc
      · intro v hv heq2
        injection hv with hv'
        subst hv'
        exact absurd heq2 heq

/-- The walkthrough Pod after its patch has been applied: the `service`
label already equals the candidate. -/
def podIdem : PodObject :=
  { kind := "Pod", name := "nginx-test", nsName := "default",
    rawLabels := some [("appName", LabelValue.str "nginx"),
                       ("car_id", LabelValue.str "01234"),
                       ("service", LabelValue.str "nginx-01234")] }

/-- The resubmission request carrying `podIdem`. -/
def arIdem : AdmissionRequest :=
  { uid := "uid-idem", nsName := "default", object := some podIdem }

/-- Witness for C2 at a Pod whose `service` label already equals the
candidate — the second call of the idempotence scenario; it also checks
concretely that this call produces no patch. -/
theorem patch_iff_label_state_differs_witness :
    (addLabel (some nsAlwaysFound) arIdem).1 = Except.ok (allowUnchanged "uid-idem") ∧
    (allowUnchanged "uid-idem").patch = none ∧
    (∃ resp, (addLabel (some nsAlwaysFound) arIdem).1 = Except.ok resp ∧
      ((resp.patch).isSome ↔
        ∃ v, candidateService (getLabels podIdem.rawLabels) = some v ∧
          lookupLabel (getLabels podIdem.rawLabels) serviceLabelKey ≠ some v) ∧
      (lookupLabel (getLabels podIdem.rawLabels) "appName" = none →
        lookupLabel (getLabels podIdem.rawLabels) "car_id" = none →
          resp.patch = none) ∧
      (∀ v, candidateService (getLabels podIdem.rawLabels) = some v →
        lookupLabel (getLabels podIdem.rawLabels) serviceLabelKey = some v →
          resp.patch = none)) :=
  ⟨rfl, rfl,
    patch_iff_label_state_differs nsAlwaysFound arIdem podIdem rfl rfl rfl⟩

/-- C6: the decoder rejects any Content-Type other than exactly
`application/json` with `BadContentType` (checked first); with the right
Content-Type it rejects undeserializable bodies with `MalformedEnvelope`,
envelopes without an inner request with `MissingRequest`, and returns the
envelope otherwise. The decoder is a pure function of its input. -/
theorem parseRequest_characterization (r : HttpRequest) :
    (r.contentType ≠ "application/json" →
      parseRequest r = Except.error DecodeError.badContentType) ∧
    (r.contentType = "application/json" → r.body = Body.malformed →
      parseRequest r = Except.error DecodeError.malformedEnvelope) ∧
    (∀ rv, r.contentType = "application/json" → r.body = Body.wellFormed rv →
      rv.request = none → parseRequest r = Except.error DecodeError.missingRequest) ∧
    (∀ rv req, r.contentType = "application/json" → r.body = Body.wellFormed rv →
      rv.request = some req → parseRequest r = Except.ok rv) := by
  refine ⟨?_, ?_, ?_, ?_⟩
  · intro h
    simp [parseRequest, h]
  · intro h hb
    simp [parseRequest, h, hb]
  · intro rv h hb hr
    simp [parseRequest, h, hb, hr]
  · intro rv req h hb hr
    simp [parseRequest, h, hb, hr]

/-- The well-formed review envelope used by the decoder witness. -/
def rvGood : AdmissionReview := { request := some arNginx }

/-- Witness for C6: one concrete input per clause of the decoder
characterization. -/
theorem parseRequest_characterization_witness :
    parseRequest { contentType := "text/plain", body := Body.malformed } =
      Except.error DecodeError.badContentType ∧
    parseRequest { contentType := "application/json", body := Body.malformed } =
      Except.error DecodeError.malformedEnvelope ∧
    parseRequest { contentType := "application/json", body := Body.wellFormed { request := none } } =
      Except.error DecodeError.missingRequest ∧
    parseRequest { contentType := "application/json", body := Body.wellFormed rvGood } =
      Except.ok rvGood :=
  ⟨(parseRequest_characterization _).1 (by decide),
    (parseRequest_characterization _).2.1 rfl rfl,
    (parseRequest_characterization _).2.2.1 { request := none } rfl rfl rfl,
    (parseRequest_characterization _).2.2.2 rvGood arNginx rfl rfl rfl⟩

/-- C8 counterexample: a call on a non-Pod request performs zero namespace
lookups, not exactly one — the kind check short-circuits before the
lookup. -/
theorem nonPod_zero_lookups_cex :
    (addLabel (some nsAlwaysFound) arDeploy).2 = [] ∧
    ¬ (addLabel (some nsAlwaysFound) arDeploy).2.length = 1 :=
  ⟨rfl, by decide⟩

/-- C8 amended: the lookup trace of every call is characterized — exactly
one namespace lookup (of the effective namespace) when the client is
available, the object converts and its kind is `"Pod"`; no lookup
otherwise; hence never more than one, and never any write (the trace
consists of lookups only, by construction of `Effect`). -/
theorem lookup_trace_characterization (g : Option (String → NsResult))
    (ar : AdmissionRequest) :
    (addLabel g ar).2 =
      (match g, ar.object with
        | some _, some u =>
          if u.kind = "Pod" then [Effect.nsGet (effectiveNamespace ar u)] else []
        | _, _ => []) := by
  cases g with
  | none => rfl
  | some nsGet =>
    cases hobj : ar.object with
    | none => simp [addLabel, hobj]
    | some u =>
      by_cases hk : u.kind = "Pod"
      · cases hns : nsGet (effectiveNamespace ar u) with
        | notFound =>
          rw [addLabel_nsFail_eq nsGet ar u hobj hk (Or.inl hns)]
          simp [hk]
        | transportError =>
          rw [addLabel_nsFail_eq nsGet ar u hobj hk (Or.inr hns)]
          simp [hk]
        | found =>
          cases hc : candidateService (getLabels u.rawLabels) with
          | none =>
            rw [addLabel_noCandidate_eq nsGet ar u hobj hk hns hc]
            simp [hk]
          | some v =>
            by_cases heq : lookupLabel (getLabels u.rawLabels) serviceLabelKey = some v
            · rw [addLabel_noop_eq nsGet ar u v hobj hk hns hc heq]
              simp [hk]
            · rw [addLabel_patch_eq nsGet ar u v hobj hk hns hc heq]
              simp [hk]
      · rw [addLabel_nonPod_eq nsGet ar u hobj hk]
        simp [hk]

/-- A Pod whose `appName` label value contains a double quote. -/
def podQuote : PodObject :=
  { kind := "Pod", name := "quoted", nsName := "default",
    rawLabels := some [("appName", LabelValue.str "a\"b"),
                       ("car_id", LabelValue.str "c")] }

/-- A request carrying `podQuote`. -/
def arQuote : AdmissionRequest :=
  { uid := "uid-quote", nsName := "default", object := some podQuote }

/-- C9: the engine splices label values into the patch bytes without JSON
escaping, so a label value containing a double quote yields patch bytes
that are not valid JSON at all — the emitted patch fails to parse. -/
theorem quoted_label_invalid_patch_json :
    (addLabel (some nsAlwaysFound) arQuote).1 =
      Except.ok { uid := "uid-quote", allowed := true,
                  patch := some (patchAddKey "a\"b-c"),
                  patchType := some "JSONPatch" } ∧
    jsonParse (patchAddKey "a\"b-c") = none :=
  ⟨rfl, rfl⟩

end MutatingWebhook
